import Mathlib

/-!
# Verification of the dtools-fp / grscheller-fp Maybe-Either core

A shallow embedding of the Python library `grscheller/dtools-fp`:

* `DT` — the `dtools.fp` modules (`err_handling.MayBe`, `err_handling.Xor`,
  `iterables.reduceL` / `foldL` / `mbFoldL`);
* `GS` — the `grscheller.fp` modules (`err_handling.MB`, `err_handling.XOR`);
* `WE` — `grscheller.fp.woException` (`XOR`);
* `Sing` — the named-sentinel registry backing `MayBe`'s empty state.

Python's dynamically typed values are modelled by the inductive `PyVal`;
Python exceptions are modelled by `PyErr`, and a Python callable that may
raise becomes a Lean function into `Except PyErr _`.  Python iterators are
modelled by the `List` of the values they yield.  `is`-identity on sentinel
objects coincides with name equality (the sentinel classes intern one
instance per name), so both Python `is` and `==` on the values appearing in
this development are modelled by structural equality of `PyVal`.
-/

set_option autoImplicit false

/-- The universe of Python values stored in the containers under study:
`None`, booleans, integers, strings, interned `Sentinel`/singleton objects
(identified by their name), `MayBe`/`MB` objects (the `mb` constructor holds
the object's `_value` slot, which is the sentinel `Sentinel('MayBe')` when
the object is empty), and lists (also standing for the value stream of an
iterator). -/
inductive PyVal : Type where
  | none
  | bool (b : Bool)
  | int (n : Int)
  | str (s : String)
  | sentinel (name : String)
  | mb (v : PyVal)
  | listNil
  | listCons (hd tl : PyVal)
deriving DecidableEq, Repr

/-- A Python list value, as the cons-encoded `PyVal` of its elements. -/
def PyVal.ofList : List PyVal → PyVal
  | [] => .listNil
  | x :: xs => .listCons x (PyVal.ofList xs)

/-- Python exception values, by class; the classes are the ones appearing in
the library's `raise` statements and `except` clauses.  `recursionError` is a
subclass of `RuntimeError` in Python but is listed separately, exactly as the
source's `except` tuples list it. -/
inductive PyErr : Type where
  | valueError (msg : String)
  | typeError (msg : String)
  | lookupError (msg : String)
  | arithmeticError (msg : String)
  | bufferError (msg : String)
  | recursionError (msg : String)
  | referenceError (msg : String)
  | runtimeError (msg : String)
  | stopIteration (msg : String)
  | attributeError (msg : String)
  | osError (msg : String)
deriving DecidableEq, Repr

/-- Whether an exception is caught by the eight-class `except` tuple
`(LookupError, ValueError, TypeError, BufferError, ArithmeticError,
RecursionError, ReferenceError, RuntimeError)` used throughout
`dtools.fp.err_handling` (`map_except`, `bind_except`, `call`, ...). -/
def caughtByErrTuple : PyErr → Bool
  | .valueError _ => true
  | .typeError _ => true
  | .lookupError _ => true
  | .arithmeticError _ => true
  | .bufferError _ => true
  | .recursionError _ => true
  | .referenceError _ => true
  | .runtimeError _ => true
  | .stopIteration _ => false
  | .attributeError _ => false
  | .osError _ => false

namespace DT

/-- `Sentinel('MayBe')`, the interned sentinel object marking an empty
`dtools.fp.err_handling.MayBe`. -/
def mbSentinel : PyVal := .sentinel "MayBe"

/-- `dtools.fp.err_handling.MayBe`: a Python object with a single slot
`_value`; `MayBe()` stores `Sentinel('MayBe')` there (the constructor's
default argument), `MayBe(v)` stores `v`. -/
structure MayBe where
  value : PyVal
deriving DecidableEq, Repr

/-- `MayBe()` — the empty `MayBe` (constructor called with no argument). -/
def MayBe.empty : MayBe := ⟨mbSentinel⟩

/-- `MayBe.__bool__`: `self._value is not Sentinel('MayBe')`. -/
def MayBe.isSome (m : MayBe) : Bool := decide (m.value ≠ mbSentinel)

/-- `MayBe.get(alt=Sentinel('MayBe'))`: the contained value if present,
else `alt` if one was supplied, else `ValueError`. -/
def MayBe.get (m : MayBe) (alt : PyVal := mbSentinel) : Except PyErr PyVal :=
  if m.value ≠ mbSentinel then .ok m.value
  else if alt = mbSentinel then
    .error (.valueError "MayBe: an alternate return type not provided")
  else .ok alt

/-- `MayBe.map(f)`: `MayBe(f(self._value))` if present — any exception `f`
raises propagates to the caller — else `self`. -/
def MayBe.map (m : MayBe) (f : PyVal → Except PyErr PyVal) : Except PyErr MayBe :=
  if m.isSome then (f m.value).map (fun u => ⟨u⟩) else .ok m

/-- `MayBe.bind(f)`: `f(self._value)` if present — exceptions from `f`
propagate — else `self`. -/
def MayBe.bind (m : MayBe) (f : PyVal → Except PyErr MayBe) : Except PyErr MayBe :=
  if m.isSome then f m.value else .ok m

/-- `MayBe.map_except(f)`: like `map`, but an exception from `f` belonging to
the eight-class `except` tuple is swallowed into `MayBe()`; any other
exception still propagates. -/
def MayBe.map_except (m : MayBe) (f : PyVal → Except PyErr PyVal) : Except PyErr MayBe :=
  if !m.isSome then .ok m
  else
    match f m.value with
    | .ok u => .ok ⟨u⟩
    | .error e => if caughtByErrTuple e then .ok MayBe.empty else .error e

/-- `MayBe.bind_except(f)`: like `bind`, but exceptions from the eight-class
tuple are swallowed into `MayBe()`. -/
def MayBe.bind_except (m : MayBe) (f : PyVal → Except PyErr MayBe) : Except PyErr MayBe :=
  if !m.isSome then .ok m
  else
    match f m.value with
    | .ok r => .ok r
    | .error e => if caughtByErrTuple e then .ok MayBe.empty else .error e

/-- A `PyVal` that is a `MayBe` object, viewed as a `MayBe` (the coercion
implicit in Python when a stored `MayBe` object is used as one, e.g. by the
identity function passed to `bind`).  On non-`MayBe` values the result is
irrelevant; wrapping is chosen. -/
def toMayBe : PyVal → MayBe
  | .mb w => ⟨w⟩
  | v => ⟨v⟩

/-- The `_side` slot of a `dtools.fp.err_handling.Xor`: the source stores the
`_Bool` objects `LEFT = _True()` (int `1`) and `RIGHT = _False()` (int `0`)
from `dtools.fp.bool` and compares them with `==`; a two-variant enumeration
models them faithfully. -/
inductive Side : Type where
  | left
  | right
deriving DecidableEq, Repr

/-- `dtools.fp.err_handling.Xor`: a Python object with slots `_value` and
`_side`. -/
structure Xor where
  value : PyVal
  side : Side
deriving DecidableEq, Repr

/-- `Xor.__bool__`: `self._side == LEFT`. -/
def Xor.toBool (x : Xor) : Bool := decide (x.side = Side.left)

/-- `Xor.__eq__`: equal iff both lefts or both rights, with values the same
object or `==`-equal. -/
def Xor.pyEq (a b : Xor) : Bool := decide (a.side = b.side) && decide (a.value = b.value)

/-- `Xor.get()`: the value if a left; `ValueError` if a right. -/
def Xor.get (x : Xor) : Except PyErr PyVal :=
  if x.side = Side.right then
    .error (.valueError "Xor: get method called on a right valued Xor")
  else .ok x.value

/-- `Xor.get_left()`: the left value wrapped in a `MayBe`, else `MayBe()`. -/
def Xor.get_left (x : Xor) : MayBe :=
  if x.side = Side.left then ⟨x.value⟩ else MayBe.empty

/-- `Xor.get_right()`: the right value wrapped in a `MayBe`, else `MayBe()`. -/
def Xor.get_right (x : Xor) : MayBe :=
  if x.side = Side.right then ⟨x.value⟩ else MayBe.empty

/-- `Xor.map(f)`: map over a left value (exceptions from `f` propagate);
a right is returned unchanged (`return cast(Xor[U, R], self)`). -/
def Xor.map (x : Xor) (f : PyVal → Except PyErr PyVal) : Except PyErr Xor :=
  if x.side = Side.right then .ok x
  else (f x.value).map (fun u => ⟨u, Side.left⟩)

/-- `Xor.bind(f)`: flatmap over a left value (exceptions from `f` propagate);
a right is returned unchanged. -/
def Xor.bind (x : Xor) (f : PyVal → Except PyErr Xor) : Except PyErr Xor :=
  if x.toBool then f x.value else .ok x

/-- `Xor.map_except(f, fallback_right)`: a right is returned unchanged; on a
left, `f` is applied — success gives `Xor(f(v), LEFT)` (the source stores it
in the `applied` MayBe and returns `applied.get()`), an exception from the
eight-class tuple gives `Xor(fallback_right, RIGHT)` (via the `fall_back`
MayBe), and any other exception propagates. -/
def Xor.map_except (x : Xor) (f : PyVal → Except PyErr PyVal) (fallback_right : PyVal) :
    Except PyErr Xor :=
  if x.side = Side.right then .ok x
  else
    match f x.value with
    | .ok u => .ok ⟨u, Side.left⟩
    | .error e =>
        if caughtByErrTuple e then .ok ⟨fallback_right, Side.right⟩ else .error e

/-- `Xor.bind_except(f, fallback_right)`: as `map_except` but the result of
`f` is returned unflattened-wrapped (it already is an `Xor`). -/
def Xor.bind_except (x : Xor) (f : PyVal → Except PyErr Xor) (fallback_right : PyVal) :
    Except PyErr Xor :=
  if x.side = Side.right then .ok x
  else
    match f x.value with
    | .ok r => .ok r
    | .error e =>
        if caughtByErrTuple e then .ok ⟨fallback_right, Side.right⟩ else .error e

/-- The loop of `Xor.sequence`: `ts` accumulates the left values already
seen; a left appends `xor_lr.get()`, the first right returns
`Xor(xor_lr.get_right().get(), RIGHT)`. -/
def Xor.sequenceGo : List Xor → List PyVal → Xor
  | [], ts => ⟨PyVal.ofList ts, Side.left⟩
  | x :: rest, ts =>
      if x.side = Side.left then Xor.sequenceGo rest (ts ++ [x.value])
      else ⟨x.value, Side.right⟩

/-- `Xor.sequence(itab_xor_lr)`: all lefts give `Xor(iter(ts))` — a left
holding the iterator of collected left values, modelled by the list of the
values it yields; otherwise a right holding the first right value
encountered.  Total: `get`/`get_right().get()` cannot fail on the branches
where the loop calls them. -/
def Xor.sequence (xs : List Xor) : Xor := Xor.sequenceGo xs []

end DT

namespace GS

/-- `Sentinel()` of `grscheller.fp.singletons` — a single unnamed interned
instance; modelled as the sentinel with the empty name. -/
def gsSentinel : PyVal := .sentinel ""

/-- `grscheller.fp.err_handling.MB`: one slot `_value`, holding `Sentinel()`
when empty. -/
structure MB where
  value : PyVal
deriving DecidableEq, Repr

/-- `MB()` — the empty `MB`. -/
def MB.empty : MB := ⟨gsSentinel⟩

/-- `MB.__bool__`: `self._value is not Sentinel()`. -/
def MB.isSome (m : MB) : Bool := decide (m.value ≠ gsSentinel)

/-- `grscheller.fp.err_handling.MB.map(f)`: empty returns `self`; otherwise
`MB(f(value))` with a blanket `except Exception` that turns any raised
exception into `MB()`. -/
def MB.map (m : MB) (f : PyVal → Except PyErr PyVal) : MB :=
  if m.value = gsSentinel then m
  else
    match f m.value with
    | .ok u => ⟨u⟩
    | .error _ => MB.empty

/-- `grscheller.fp.err_handling.MB.flatmap(f)`: `f(value)` if nonempty else
`MB()`, under a blanket `except Exception` returning `MB()`. -/
def MB.flatmap (m : MB) (f : PyVal → Except PyErr MB) : MB :=
  if m.isSome then
    match f m.value with
    | .ok r => r
    | .error _ => MB.empty
  else MB.empty

/-- `grscheller.fp.err_handling.XOR`: slots `_left` and `_right`; `_left` is
`Sentinel()` exactly when the `XOR` is a right.  The constructor rejects a
missing right, so `_right` is always a real value. -/
structure XOR where
  left : PyVal
  right : PyVal
deriving DecidableEq, Repr

/-- `XOR.__bool__`: `self._left is not Sentinel()`. -/
def XOR.toBool (x : XOR) : Bool := decide (x.left ≠ gsSentinel)

/-- `XOR.getLeft()` with no alternative: the left value if a left, else
`ValueError`. -/
def XOR.getLeft (x : XOR) : Except PyErr PyVal :=
  if x.left = gsSentinel then
    .error (.valueError "An alt return value was needed by getLeft, but none was provided.")
  else .ok x.left

/-- `grscheller.fp.err_handling.XOR.swapRight(right)`: for a right `XOR` the
source returns `XOR(sentinel, self._right)` — the OLD right value; the
`right` argument is used only on the left branch, which returns
`XOR(self.getLeft(), right)`. -/
def XOR.swapRight (x : XOR) (right : PyVal) : XOR :=
  if x.left = gsSentinel then ⟨gsSentinel, x.right⟩
  else ⟨x.left, right⟩

end GS

namespace WE

/-- The `nada` singleton of `grscheller.fp.nada` used by
`grscheller.fp.woException` as its hidden emptiness marker. -/
def nadaVal : PyVal := .sentinel "Nada"

/-- `grscheller.fp.woException.XOR`: slots `_left` and `_right`, stored raw
by `__init__`; `_left is nada` marks a right `XOR`. -/
structure XOR where
  left : PyVal
  right : PyVal
deriving DecidableEq, Repr

/-- `XOR.__bool__`: `self._left is not nada`. -/
def XOR.toBool (x : XOR) : Bool := decide (x.left ≠ nadaVal)

/-- `XOR.get()` with no alternative: the left value if a left, else
`ValueError`. -/
def XOR.get (x : XOR) : Except PyErr PyVal :=
  if x.left = nadaVal then
    .error (.valueError "An alt return value was needed by get, but none was provided.")
  else .ok x.left

/-- `grscheller.fp.woException.XOR.swapRight(right)`: a right `XOR` becomes
`XOR(right=right)` — the payload is replaced by the new right value; a left
`XOR` becomes `XOR(self.get(), right)`. -/
def XOR.swapRight (x : XOR) (right : PyVal) : XOR :=
  if x.left = nadaVal then ⟨nadaVal, right⟩
  else ⟨x.left, right⟩

end WE

namespace It

/-- The loop of `dtools.fp.iterables.reduceL`: `for v in it: acc = f(acc, v)`
with no exception handling — an error from `f` propagates immediately. -/
def reduceLGo (f : PyVal → PyVal → Except PyErr PyVal) : PyVal → List PyVal → Except PyErr PyVal
  | acc, [] => .ok acc
  | acc, v :: vs =>
      match f acc v with
      | .ok acc1 => reduceLGo f acc1 vs
      | .error e => .error e

/-- `dtools.fp.iterables.reduceL(iterable, f)`: the first element seeds the
accumulator; an empty iterable raises
`StopIteration("Attemped to left fold an empty iterable.")` (message as in
the source); exceptions raised by `f` are never caught. -/
def reduceL (xs : List PyVal) (f : PyVal → PyVal → Except PyErr PyVal) : Except PyErr PyVal :=
  match xs with
  | [] => .error (.stopIteration "Attemped to left fold an empty iterable.")
  | x :: rest => reduceLGo f x rest

/-- The loop of `dtools.fp.iterables.foldL`, identical to `reduceL`'s loop:
no exception handling around `f`. -/
def foldLGo (f : PyVal → PyVal → Except PyErr PyVal) : PyVal → List PyVal → Except PyErr PyVal
  | acc, [] => .ok acc
  | acc, v :: vs =>
      match f acc v with
      | .ok acc1 => foldLGo f acc1 vs
      | .error e => .error e

/-- `dtools.fp.iterables.foldL(iterable, f, initial)`: left fold from the
supplied initial value; exceptions raised by `f` are never caught. -/
def foldL (xs : List PyVal) (f : PyVal → PyVal → Except PyErr PyVal) (initial : PyVal) :
    Except PyErr PyVal :=
  foldLGo f initial xs

/-- The loop of `dtools.fp.iterables.mbFoldL`: each `acc = f(acc, v)` is
wrapped in `try ... except Exception: return MB()`, so any exception raised
by `f` yields the empty `MB` (all `PyErr` classes derive from `Exception`);
the exhausted loop returns `MB(acc)`. -/
def mbFoldLGo (f : PyVal → PyVal → Except PyErr PyVal) : PyVal → List PyVal → DT.MayBe
  | acc, [] => ⟨acc⟩
  | acc, v :: vs =>
      match f acc v with
      | .ok acc1 => mbFoldLGo f acc1 vs
      | .error _ => DT.MayBe.empty

/-- `dtools.fp.iterables.mbFoldL(iterable, f, initial=NoValue())`: `initial`
as `none` models the `NoValue()` default, in which case the first element
seeds the accumulator and an empty iterable returns `MB()`. -/
def mbFoldL (xs : List PyVal) (f : PyVal → PyVal → Except PyErr PyVal)
    (initial : Option PyVal) : DT.MayBe :=
  match initial with
  | .none =>
      match xs with
      | [] => DT.MayBe.empty
      | x :: rest => mbFoldLGo f x rest
  | .some i => mbFoldLGo f i xs

end It

namespace Sing

/-- Modelled from the spec: `dtools.fp.singletons` is absent from the source
tree (only its callers `dtools.fp.err_handling` and `dtools.fp.bool` appear),
so the named `Sentinel` class is modelled from spec §4.1: a process-wide
registry keyed by name, created lazily on first request per name,
monotonically growing, never torn down.  The registry state is the list of
names in allocation order. -/
structure Registry where
  names : List String
deriving DecidableEq, Repr

/-- The position of the first occurrence of `name` in the allocation list,
if present. -/
def lookupName (name : String) : List String → Option Nat
  | [] => Option.none
  | n :: ns => if n = name then some 0 else (lookupName name ns).map (· + 1)

/-- Modelled from the spec: `Sentinel(name)` — return the canonical handle
for `name`, allocating it on first request.  The handle is the object's
identity, modelled as its position in the allocation order; `is`-identity and
`==`-equality of handles are both equality of positions (a sentinel compares
equal only to itself). -/
def getSentinel (reg : Registry) (name : String) : Registry × Nat :=
  match lookupName name reg.names with
  | some i => (reg, i)
  | Option.none => (⟨reg.names ++ [name]⟩, reg.names.length)

end Sing

/-! ## Helper lemmas -/

/-- Nesting strictly increases `mb`-nesting depth; used to show a
`MayBe`-of-`MayBe` differs from the inner `MayBe`. -/
def PyVal.mbDepth : PyVal → Nat
  | .mb v => PyVal.mbDepth v + 1
  | _ => 0

theorem PyVal.mb_ne_self (x : PyVal) : PyVal.mb x ≠ x := by
  intro h
  have h2 := congrArg PyVal.mbDepth h
  simp only [PyVal.mbDepth] at h2
  omega

theorem Sing.lookupName_lt_and_get :
    ∀ (l : List String) (name : String) (i : Nat),
      Sing.lookupName name l = some i → i < l.length ∧ l[i]? = some name := by
  intro l
  induction l with
  | nil => intro name i h; simp [Sing.lookupName] at h
  | cons n ns ih =>
      intro name i h
      by_cases hn : n = name
      · simp [Sing.lookupName, hn] at h
        subst hn
        simp [← h]
      · simp [Sing.lookupName, hn, Option.map_eq_some'] at h
        obtain ⟨j, hj, hji⟩ := h
        obtain ⟨hjl, hjg⟩ := ih name j hj
        subst hji
        refine ⟨by simpa using Nat.succ_lt_succ hjl, ?_⟩
        simpa using hjg

theorem Sing.lookupName_append_self :
    ∀ (l : List String) (name : String),
      Sing.lookupName name l = Option.none →
      Sing.lookupName name (l ++ [name]) = some l.length := by
  intro l
  induction l with
  | nil => intro name _; simp [Sing.lookupName]
  | cons n ns ih =>
      intro name h
      by_cases hn : n = name
      · simp [Sing.lookupName, hn] at h
      · simp [Sing.lookupName, hn] at h ⊢
        simp [ih name h]

theorem Sing.getSentinel_spec (reg : Sing.Registry) (n : String) :
    ((Sing.getSentinel reg n).2 < (Sing.getSentinel reg n).1.names.length)
    ∧ ((Sing.getSentinel reg n).1.names)[(Sing.getSentinel reg n).2]? = some n
    ∧ ((Sing.getSentinel reg n).1.names = reg.names
        ∨ (Sing.getSentinel reg n).1.names = reg.names ++ [n]) := by
  unfold Sing.getSentinel
  cases h : Sing.lookupName n reg.names with
  | none =>
      refine ⟨by simp, ?_, Or.inr (by simp)⟩
      simp
  | some i =>
      obtain ⟨hl, hg⟩ := Sing.lookupName_lt_and_get reg.names n i h
      exact ⟨hl, hg, Or.inl rfl⟩

theorem Sing.getSentinel_idem (reg : Sing.Registry) (n : String) :
    Sing.getSentinel (Sing.getSentinel reg n).1 n = Sing.getSentinel reg n := by
  unfold Sing.getSentinel
  cases h : Sing.lookupName n reg.names with
  | none => simp [Sing.lookupName_append_self reg.names n h]
  | some i => simp [h]

theorem Sing.getSentinel_distinct (reg : Sing.Registry) (n1 n2 : String) (hne : n1 ≠ n2) :
    (Sing.getSentinel (Sing.getSentinel reg n1).1 n2).2 ≠ (Sing.getSentinel reg n1).2 := by
  intro heq
  obtain ⟨hlt1, hget1, -⟩ := Sing.getSentinel_spec reg n1
  obtain ⟨-, hget2, hext⟩ := Sing.getSentinel_spec (Sing.getSentinel reg n1).1 n2
  have h1 : ((Sing.getSentinel (Sing.getSentinel reg n1).1 n2).1.names)[(Sing.getSentinel reg n1).2]?
      = some n1 := by
    rcases hext with h | h
    · rw [h]; exact hget1
    · rw [h, List.getElem?_append, if_pos hlt1]; exact hget1
  rw [heq, h1] at hget2
  exact hne (Option.some.inj hget2)

theorem DT.Xor.sequenceGo_all_lefts :
    ∀ (vs ts : List PyVal),
      DT.Xor.sequenceGo (vs.map (fun v => ⟨v, DT.Side.left⟩)) ts
        = ⟨PyVal.ofList (ts ++ vs), DT.Side.left⟩ := by
  intro vs
  induction vs with
  | nil => intro ts; simp [DT.Xor.sequenceGo]
  | cons v vs ih =>
      intro ts
      simpa [DT.Xor.sequenceGo] using ih (ts ++ [v])

theorem DT.Xor.sequenceGo_first_right :
    ∀ (vs ts : List PyVal) (r : PyVal) (rest : List DT.Xor),
      DT.Xor.sequenceGo (vs.map (fun v => ⟨v, DT.Side.left⟩) ++ ⟨r, DT.Side.right⟩ :: rest) ts
        = ⟨r, DT.Side.right⟩ := by
  intro vs
  induction vs with
  | nil => intro ts r rest; simp [DT.Xor.sequenceGo]
  | cons v vs ih =>
      intro ts r rest
      simpa [DT.Xor.sequenceGo] using ih (ts ++ [v]) r rest

theorem It.foldLGo_eq_reduceLGo :
    ∀ (vs : List PyVal) (f : PyVal → PyVal → Except PyErr PyVal) (acc : PyVal),
      It.foldLGo f acc vs = It.reduceLGo f acc vs := by
  intro vs
  induction vs with
  | nil => intro f acc; rfl
  | cons v vs ih =>
      intro f acc
      simp only [It.foldLGo, It.reduceLGo]
      cases f acc v with
      | ok acc1 => exact ih f acc1
      | error e => rfl

theorem It.mbFoldLGo_of_foldLGo :
    ∀ (vs : List PyVal) (f : PyVal → PyVal → Except PyErr PyVal) (acc : PyVal),
      (∀ e, It.foldLGo f acc vs = .error e → It.mbFoldLGo f acc vs = DT.MayBe.empty)
      ∧ (∀ a, It.foldLGo f acc vs = .ok a → It.mbFoldLGo f acc vs = ⟨a⟩) := by
  intro vs
  induction vs with
  | nil =>
      intro f acc
      refine ⟨fun e h => by simp [It.foldLGo] at h, fun a h => ?_⟩
      simp [It.foldLGo] at h
      simp [It.mbFoldLGo, h]
  | cons v vs ih =>
      intro f acc
      constructor
      · intro e h
        simp only [It.foldLGo] at h
        simp only [It.mbFoldLGo]
        cases hf : f acc v with
        | ok acc1 => rw [hf] at h; exact (ih f acc1).1 e h
        | error e1 => rfl
      · intro a h
        simp only [It.foldLGo] at h
        simp only [It.mbFoldLGo]
        cases hf : f acc v with
        | ok acc1 => rw [hf] at h; exact (ih f acc1).2 a h
        | error e1 => rw [hf] at h; exact absurd h (by simp)

/-! ## Claim theorems -/

/-- Claim C1, counterexample: the claim fails on the dtools code as stated.
With `x = 0` and an `f` that raises `ValueError("boom")`,
`MayBe(0).map(f)` raises (the `ValueError` propagates to the caller of
`map`) instead of returning `MayBe()`. -/
theorem maybe_map_raises_counterexample :
    (DT.MayBe.mk (PyVal.int 0)).map (fun _ => .error (.valueError "boom"))
        = .error (.valueError "boom")
    ∧ (DT.MayBe.mk (PyVal.int 0)).map (fun _ => .error (.valueError "boom"))
        ≠ .ok DT.MayBe.empty := by
  have h1 : (DT.MayBe.mk (PyVal.int 0)).map (fun _ => .error (.valueError "boom"))
      = (.error (.valueError "boom") : Except PyErr DT.MayBe) := rfl
  exact ⟨h1, by rw [h1]; simp⟩

/-- Claim C1, amended: `dtools` `MayBe.map`/`bind` propagate any exception
raised by `f`; exception swallowing lives in the `map_except`/`bind_except`
variants, which return `MayBe()` when `f` raises an exception from the
eight-class `except` tuple and still propagate any other exception; the
older `grscheller` `MB.map` swallows every `Exception`, returning `MB()`. -/
theorem maybe_map_exception_policy :
    ∀ (x : PyVal) (f : PyVal → Except PyErr PyVal) (g : PyVal → Except PyErr DT.MayBe)
      (e : PyErr), x ≠ DT.mbSentinel → f x = .error e → g x = .error e →
      ((DT.MayBe.mk x).map f = .error e)
      ∧ ((DT.MayBe.mk x).bind g = .error e)
      ∧ (caughtByErrTuple e = true → (DT.MayBe.mk x).map_except f = .ok DT.MayBe.empty)
      ∧ (caughtByErrTuple e = true → (DT.MayBe.mk x).bind_except g = .ok DT.MayBe.empty)
      ∧ (caughtByErrTuple e = false → (DT.MayBe.mk x).map_except f = .error e)
      ∧ ((GS.MB.mk x).map f = GS.MB.empty) := by
  intro x f g e hx hf hg
  refine ⟨?_, ?_, ?_, ?_, ?_, ?_⟩
  · simp [DT.MayBe.map, DT.MayBe.isSome, hx, hf, Except.map]
  · simp [DT.MayBe.bind, DT.MayBe.isSome, hx, hg]
  · intro hc; simp [DT.MayBe.map_except, DT.MayBe.isSome, hx, hf, hc]
  · intro hc; simp [DT.MayBe.bind_except, DT.MayBe.isSome, hx, hg, hc]
  · intro hc; simp [DT.MayBe.map_except, DT.MayBe.isSome, hx, hf, hc]
  · by_cases hgs : x = GS.gsSentinel
    · simp [GS.MB.map, hgs, GS.MB.empty]
    · simp [GS.MB.map, hgs, hf, GS.MB.empty]

/-- Claim C1, witness for the amended theorem at `x = 5`,
`f` raising `ValueError("oops")`. -/
theorem maybe_map_exception_policy_witness :
    ((DT.MayBe.mk (PyVal.int 5)).map (fun _ => .error (.valueError "oops"))
        = .error (.valueError "oops"))
    ∧ ((DT.MayBe.mk (PyVal.int 5)).map_except (fun _ => .error (.valueError "oops"))
        = .ok DT.MayBe.empty) := by
  have h := maybe_map_exception_policy (PyVal.int 5) (fun _ => .error (.valueError "oops"))
      (fun _ => .error (.valueError "oops")) (.valueError "oops") (by decide) rfl rfl
  exact ⟨h.1, h.2.2.1 rfl⟩

/-- Claim C2: `Xor.sequence` of all-lefts is a left collecting the left
values in order; with at least one right, it returns a right holding the
payload of the first right in left-to-right order — in particular
`sequence([Left(1), Right("a"), Left(2), Right("b")]) = Right("a")`. -/
theorem xor_sequence_first_right :
    (∀ vs : List PyVal,
        DT.Xor.sequence (vs.map (fun v => ⟨v, DT.Side.left⟩))
          = ⟨PyVal.ofList vs, DT.Side.left⟩)
    ∧ (∀ (vs : List PyVal) (r : PyVal) (rest : List DT.Xor),
        DT.Xor.sequence (vs.map (fun v => ⟨v, DT.Side.left⟩) ++ ⟨r, DT.Side.right⟩ :: rest)
          = ⟨r, DT.Side.right⟩)
    ∧ DT.Xor.sequence
        [⟨.int 1, .left⟩, ⟨.str "a", .right⟩, ⟨.int 2, .left⟩, ⟨.str "b", .right⟩]
        = ⟨.str "a", .right⟩ := by
  refine ⟨fun vs => ?_, fun vs r rest => DT.Xor.sequenceGo_first_right vs [] r rest, by decide⟩
  simpa [DT.Xor.sequence] using DT.Xor.sequenceGo_all_lefts vs []

/-- Claim C3: an `Xor` is truthy iff it is a left; `get()` (which takes no
alternative) raises `ValueError` on a right and returns the left value on a
left. -/
theorem xor_bool_left_get_spec :
    ∀ x : DT.Xor,
      (x.toBool = true ↔ x.side = DT.Side.left)
      ∧ (x.side = DT.Side.right →
          x.get = .error (.valueError "Xor: get method called on a right valued Xor"))
      ∧ (x.side = DT.Side.left → x.get = .ok x.value) := by
  intro x
  exact ⟨by simp [DT.Xor.toBool], fun h => by simp [DT.Xor.get, h],
    fun h => by simp [DT.Xor.get, h]⟩

/-- Claim C3, witness at a concrete right and a concrete left `Xor`. -/
theorem xor_bool_left_get_spec_witness :
    DT.Xor.get ⟨PyVal.int 7, DT.Side.right⟩
        = .error (.valueError "Xor: get method called on a right valued Xor")
    ∧ DT.Xor.get ⟨PyVal.int 7, DT.Side.left⟩ = .ok (PyVal.int 7) :=
  ⟨(xor_bool_left_get_spec ⟨PyVal.int 7, DT.Side.right⟩).2.1 rfl,
   (xor_bool_left_get_spec ⟨PyVal.int 7, DT.Side.left⟩).2.2 rfl⟩

/-- Claim C4: requesting the sentinel for a name twice yields the identical
handle and leaves the registry untouched; handles for distinct names are
distinct (and handles compare equal only when identical, identity being the
registry position). -/
theorem sentinel_identity :
    (∀ (reg : Sing.Registry) (n : String),
        Sing.getSentinel (Sing.getSentinel reg n).1 n = Sing.getSentinel reg n)
    ∧ (∀ (reg : Sing.Registry) (n1 n2 : String), n1 ≠ n2 →
        (Sing.getSentinel (Sing.getSentinel reg n1).1 n2).2
          ≠ (Sing.getSentinel reg n1).2) :=
  ⟨Sing.getSentinel_idem, Sing.getSentinel_distinct⟩

/-- Claim C4, witness: from the empty registry, the handles for `"MayBe"`
and `"XOR"` differ. -/
theorem sentinel_identity_witness :
    (Sing.getSentinel (Sing.getSentinel ⟨[]⟩ "MayBe").1 "XOR").2
      ≠ (Sing.getSentinel ⟨[]⟩ "MayBe").2 :=
  sentinel_identity.2 ⟨[]⟩ "MayBe" "XOR" (by decide)

/-- Claim C5: a right `Xor` is inert: `map`, `bind`, `map_except` and
`bind_except` all return it unchanged (the source returns `self`), for every
mapping function and every fallback. -/
theorem xor_right_inert :
    ∀ (r fallback : PyVal) (f : PyVal → Except PyErr PyVal)
      (g : PyVal → Except PyErr DT.Xor),
      DT.Xor.map ⟨r, DT.Side.right⟩ f = .ok ⟨r, DT.Side.right⟩
      ∧ DT.Xor.bind ⟨r, DT.Side.right⟩ g = .ok ⟨r, DT.Side.right⟩
      ∧ DT.Xor.map_except ⟨r, DT.Side.right⟩ f fallback = .ok ⟨r, DT.Side.right⟩
      ∧ DT.Xor.bind_except ⟨r, DT.Side.right⟩ g fallback = .ok ⟨r, DT.Side.right⟩ := by
  intro r fallback f g
  exact ⟨by simp [DT.Xor.map], by simp [DT.Xor.bind, DT.Xor.toBool],
    by simp [DT.Xor.map_except], by simp [DT.Xor.bind_except]⟩

/-- Claim C6: `MayBe(MayBe(x))` does not auto-flatten: it is present, its
contained value is the inner `MayBe` object, it differs from `MayBe(x)`
itself, and flattening happens through an explicit `bind` with the identity
function. -/
theorem maybe_no_autoflatten :
    ∀ x : PyVal,
      (DT.MayBe.mk (PyVal.mb x)).isSome = true
      ∧ (DT.MayBe.mk (PyVal.mb x)).value = PyVal.mb x
      ∧ DT.MayBe.mk (PyVal.mb x) ≠ DT.MayBe.mk x
      ∧ (DT.MayBe.mk (PyVal.mb x)).bind (fun v => .ok (DT.toMayBe v))
          = .ok (DT.MayBe.mk x) := by
  intro x
  refine ⟨?_, rfl, ?_, ?_⟩
  · simp [DT.MayBe.isSome, DT.mbSentinel]
  · intro h
    exact PyVal.mb_ne_self x (congrArg DT.MayBe.value h)
  · simp [DT.MayBe.bind, DT.MayBe.isSome, DT.mbSentinel, DT.toMayBe]

/-- Claim C7: evaluation at the failing input.  In
`grscheller.fp.err_handling`, `swapRight` on a right `XOR` holding `"a"`
ignores the new right value `"b"` and returns a right still holding `"a"`,
contradicting its own docstring; the `woException.py` version replaces the
payload with `"b"` as the claim states. -/
theorem swapRight_bug_eval :
    GS.XOR.swapRight ⟨GS.gsSentinel, PyVal.str "a"⟩ (PyVal.str "b")
        = ⟨GS.gsSentinel, PyVal.str "a"⟩
    ∧ GS.XOR.swapRight ⟨GS.gsSentinel, PyVal.str "a"⟩ (PyVal.str "b")
        ≠ ⟨GS.gsSentinel, PyVal.str "b"⟩
    ∧ WE.XOR.swapRight ⟨WE.nadaVal, PyVal.str "a"⟩ (PyVal.str "b")
        = ⟨WE.nadaVal, PyVal.str "b"⟩
    ∧ WE.XOR.swapRight ⟨PyVal.int 5, PyVal.str "a"⟩ (PyVal.str "b")
        = ⟨PyVal.int 5, PyVal.str "b"⟩ := by
  exact ⟨by decide, by decide, by decide, by decide⟩

/-- Claim C8: `reduceL` on an empty iterable raises the empty-fold
`StopIteration` error; `foldL` on an empty iterable returns the initial
value unchanged; and neither catches an exception raised by `f` — the first
error raised in the fold loop propagates. -/
theorem fold_boundary :
    (∀ f : PyVal → PyVal → Except PyErr PyVal,
        It.reduceL [] f = .error (.stopIteration "Attemped to left fold an empty iterable."))
    ∧ (∀ (f : PyVal → PyVal → Except PyErr PyVal) (i : PyVal), It.foldL [] f i = .ok i)
    ∧ (∀ (f : PyVal → PyVal → Except PyErr PyVal) (acc v : PyVal) (vs : List PyVal) (e : PyErr),
        f acc v = .error e → It.reduceLGo f acc (v :: vs) = .error e)
    ∧ (∀ (f : PyVal → PyVal → Except PyErr PyVal) (i v : PyVal) (vs : List PyVal) (e : PyErr),
        f i v = .error e → It.foldL (v :: vs) f i = .error e) := by
  refine ⟨fun f => rfl, fun f i => rfl, fun f acc v vs e h => ?_, fun f i v vs e h => ?_⟩
  · simp [It.reduceLGo, h]
  · simp [It.foldL, It.foldLGo, h]

/-- Claim C8, witness: a concrete raising `f` propagates out of `reduceL`,
and `foldL([], f, 10) = 10`. -/
theorem fold_boundary_witness :
    It.reduceL [PyVal.int 1, PyVal.int 2] (fun _ _ => .error (.typeError "boom"))
        = .error (.typeError "boom")
    ∧ It.foldL [] (fun _ _ => .error (.typeError "boom")) (PyVal.int 10)
        = .ok (PyVal.int 10) := by
  refine ⟨?_, fold_boundary.2.1 (fun _ _ => .error (.typeError "boom")) (PyVal.int 10)⟩
  have h := fold_boundary.2.2.1 (fun _ _ => .error (.typeError "boom"))
      (PyVal.int 1) (PyVal.int 2) [] (.typeError "boom") rfl
  simpa [It.reduceL] using h

/-- Claim C9: storing the library's own sentinel yields the empty `MayBe`
(falsy, `get()` with no alternative raises `ValueError`), while every other
value — `None` included — is stored and makes the `MayBe` truthy with
`get()` returning it. -/
theorem maybe_sentinel_storage :
    DT.MayBe.mk DT.mbSentinel = DT.MayBe.empty
    ∧ (DT.MayBe.mk DT.mbSentinel).isSome = false
    ∧ (DT.MayBe.mk DT.mbSentinel).get
        = .error (.valueError "MayBe: an alternate return type not provided")
    ∧ ∀ v : PyVal, v ≠ DT.mbSentinel →
        (DT.MayBe.mk v).isSome = true ∧ (DT.MayBe.mk v).get = .ok v := by
  refine ⟨rfl, by simp [DT.MayBe.isSome], by simp [DT.MayBe.get],
    fun v hv => ⟨by simp [DT.MayBe.isSome, hv], by simp [DT.MayBe.get, hv]⟩⟩

/-- Claim C9, witness at `v = None`: stored and truthy. -/
theorem maybe_sentinel_storage_witness :
    (DT.MayBe.mk PyVal.none).isSome = true
    ∧ (DT.MayBe.mk PyVal.none).get = .ok PyVal.none :=
  maybe_sentinel_storage.2.2.2 PyVal.none (by decide)

/-- Claim C10: whenever the corresponding unguarded fold raises (which can
only come from `f`), `mbFoldL` returns the empty `MB` instead of propagating
the exception — both with a supplied initial value (the `foldL` shape) and
without one (the `reduceL` shape); on a successful fold it returns the
wrapped accumulator. -/
theorem mbFoldL_swallows :
    ∀ (xs : List PyVal) (f : PyVal → PyVal → Except PyErr PyVal) (e : PyErr),
      (∀ i, It.foldL xs f i = .error e → It.mbFoldL xs f (some i) = DT.MayBe.empty)
      ∧ (It.reduceL xs f = .error e → It.mbFoldL xs f Option.none = DT.MayBe.empty)
      ∧ (∀ i a, It.foldL xs f i = .ok a → It.mbFoldL xs f (some i) = ⟨a⟩) := by
  intro xs f e
  refine ⟨fun i h => (It.mbFoldLGo_of_foldLGo xs f i).1 e h, ?_,
    fun i a h => (It.mbFoldLGo_of_foldLGo xs f i).2 a h⟩
  intro h
  cases xs with
  | nil => rfl
  | cons x rest =>
      have h' : It.foldLGo f x rest = .error e := by
        rw [It.foldLGo_eq_reduceLGo]
        simpa [It.reduceL] using h
      exact (It.mbFoldLGo_of_foldLGo rest f x).1 e h'

/-- Claim C10, witness: `f` raising `OSError` (not even in the eight-class
tuple — the `mbFoldL` catch is a blanket `except Exception`) makes the fold
fail, and `mbFoldL` returns `MB()`. -/
theorem mbFoldL_swallows_witness :
    It.mbFoldL [PyVal.int 1] (fun _ _ => .error (.osError "boom")) (some (PyVal.int 0))
      = DT.MayBe.empty :=
  (mbFoldL_swallows [PyVal.int 1] (fun _ _ => .error (.osError "boom"))
      (.osError "boom")).1 (PyVal.int 0) rfl
